import Mathlib

/-!
# Verification of `scripts/keep_alive.py`

A shallow embedding of the Zeabur keep-alive script into Lean 4.

Python strings are modelled as `List Char`.  The Python string methods the
script relies on (`str.split(sep)`, `str.split(sep, 1)`, `str.strip()`,
`str.join`, the `in` substring test) are embedded as executable Lean
functions below.  `str.strip()` with no argument strips whitespace
characters; we model the whitespace class with `Char.isWhitespace`
(space, tab, CR, LF), which covers every character the script can
realistically meet here.

Effectful operations (Playwright navigation, HTTP requests, file I/O) are
modelled by oracles: pure functions supplied as parameters that say how the
outside world answers each request.  A Python exception is modelled as an
`Except`/failure value, and a `try/except` block as a `match` on it.
-/

namespace KeepAlive

/-! ## Python string primitives -/

/-- Python `s.split(sep)` for a one-character separator `sep`:
splits on every occurrence, keeping empty pieces
(`"".split(';') == ['']`, `"a;;b".split(';') == ['a','','b']`). -/
def splitOnChar (sep : Char) : List Char → List (List Char)
  | [] => [[]]
  | c :: rest =>
    if c = sep then [] :: splitOnChar sep rest
    else
      match splitOnChar sep rest with
      | [] => [[c]]
      | h :: t => (c :: h) :: t

/-- Python `s.split(sep, 1)` for a one-character separator, restricted to
the information the script uses: `some (a, b)` when `s = a ++ sep :: b`
with `sep ∉ a` (the list `[a, b]` of length 2), `none` when `sep`
does not occur in `s` (the list `[s]` of length 1). -/
def splitFirst (sep : Char) : List Char → Option (List Char × List Char)
  | [] => none
  | c :: rest =>
    if c = sep then some ([], rest)
    else
      match splitFirst sep rest with
      | none => none
      | some (a, b) => some (c :: a, b)

/-- Python `s.strip()`: remove leading and trailing whitespace. -/
def stripChars (s : List Char) : List Char :=
  ((s.dropWhile Char.isWhitespace).reverse.dropWhile Char.isWhitespace).reverse

/-- Python `sep.join(parts)`. -/
def joinSep (sep : List Char) : List (List Char) → List Char
  | [] => []
  | [p] => p
  | p :: ps => p ++ sep ++ joinSep sep ps

/-- Python `pat in s`: contiguous-substring test. -/
def containsStr (pat : List Char) : List Char → Bool
  | [] => pat.isEmpty
  | c :: rest => pat.isPrefixOf (c :: rest) || containsStr pat rest

/-! ## Cookie codec (`parse_cookies` / `format_cookies`, lines 85–102) -/

/-- One element of the list `parse_cookies` builds: a Playwright cookie
dict with keys `name`, `value`, `domain`, `path`. -/
structure CookieRecord where
  name : List Char
  value : List Char
  domain : List Char
  path : List Char
deriving DecidableEq, Repr

/-- `parse_cookies` (lines 85–97): split the cookie string on `';'`; for each
piece, strip it and split on the first `'='`; pieces without an `'='` are
dropped (`len(parts) == 2` fails); a kept piece contributes one record with
stripped name and value, fixed domain `'.zeabur.com'` and path `'/'`. -/
def parse_cookies (cookie_string : List Char) : List CookieRecord :=
  (splitOnChar ';' cookie_string).filterMap fun cookie =>
    match splitFirst '=' (stripChars cookie) with
    | some (n, v) =>
        some { name := stripChars n, value := stripChars v,
               domain := ".zeabur.com".data, path := "/".data }
    | none => none

/-- `format_cookies` (lines 100–102): keep the cookies whose domain contains
the substring `'zeabur.com'`, render each as `name=value`, join with `'; '`. -/
def format_cookies (cookies : List CookieRecord) : List Char :=
  joinSep "; ".data
    ((cookies.filter fun c => containsStr "zeabur.com".data c.domain).map
      fun c => c.name ++ '=' :: c.value)

/-! ## Session validator (`login_with_cookie`, lines 107–134) -/

/-- What one navigation attempt observes: either `page.goto` +
`wait_for_timeout` complete and the page ends at URL `url`, or navigation
raises. -/
inductive NavOutcome where
  | nav (url : List Char)
  | err
deriving DecidableEq

/-- The `'/login'` literal of line 118. -/
def loginSeg : List Char := "/login".data

/-- An attempt is a failure when the page URL contains `'/login'`
(redirect to the login page) or navigation raised. -/
def failedOutcome : NavOutcome → Bool
  | .nav url => containsStr loginSeg url
  | .err => true

/-- Instrumented result of `login_with_cookie`.  Page handles are numbered
by the attempt that opened them (`context.new_page()` for attempt `n` is
page `n`; the fresh page of the exhaustion return is page `max_retries+1`).
`attempts` counts loop iterations entered; `opened`/`closed` record page
handles in event order; `sleeps` records each `time.sleep` duration in
seconds; `injected` records the cookies added to the context on entry. -/
structure LoginResult where
  page : Nat
  success : Bool
  attempts : Nat
  opened : List Nat
  closed : List Nat
  sleeps : List Nat
  injected : List CookieRecord := []
deriving DecidableEq, Repr

/-- The shared failure path of one loop iteration (lines 121–131): the
else-branch and the except-branch both `page.close()`, then the loop
tail sleeps `5 * (attempt + 1)` seconds iff `attempt < max_retries`. -/
def loginFailStep (max_retries attempt : Nat) (r : LoginResult) : LoginResult :=
  { r with
    opened := attempt :: r.opened,
    closed := attempt :: r.closed,
    sleeps := (if attempt < max_retries then [5 * (attempt + 1)] else []) ++ r.sleeps }

/-- The `for attempt in range(max_retries + 1)` loop of lines 112–134,
embedded as fuel recursion: `fuel` is the number of iterations left, so the
loop starts with `fuel = max_retries + 1` and the `fuel = 0` case is the
fall-through to line 134 (`return context.new_page(), False`). -/
def loginAux (outcomes : Nat → NavOutcome) (max_retries : Nat) :
    Nat → Nat → LoginResult
  | attempt, 0 =>
      { page := attempt, success := false, attempts := attempt,
        opened := [attempt], closed := [], sleeps := [] }
  | attempt, fuel + 1 =>
      match outcomes attempt with
      | .nav url =>
          if containsStr loginSeg url = false then
            { page := attempt, success := true, attempts := attempt + 1,
              opened := [attempt], closed := [], sleeps := [] }
          else
            loginFailStep max_retries attempt
              (loginAux outcomes max_retries (attempt + 1) fuel)
      | .err =>
          loginFailStep max_retries attempt
            (loginAux outcomes max_retries (attempt + 1) fuel)

/-- `login_with_cookie` (lines 107–134): inject the parsed cookies into the
context (line 110), then run the retry loop.  `outcomes` is the navigation
oracle: what attempt `n`'s `page.goto` + settle observes. -/
def login_with_cookie (cookie_string : List Char) (outcomes : Nat → NavOutcome)
    (max_retries : Nat := 2) : LoginResult :=
  { loginAux outcomes max_retries 0 (max_retries + 1) with
    injected := parse_cookies cookie_string }

/-! ## Telegram notifier (`send_telegram_message` / `send_telegram_photo`,
lines 24–50) -/

/-- What the `requests.post` call inside `send_telegram_message` does:
`ok` = 2xx response; `badStatus` = response arrives but
`raise_for_status()` raises `HTTPError` (non-2xx); `netError` =
`requests.post` itself raises (network error, timeout). -/
inductive PostOutcome where
  | ok
  | badStatus
  | netError
deriving DecidableEq

/-- The body of `send_telegram_message`'s `try` block (lines 28–34) as an
exception-transparent computation: `.ok ()` means the body reached
`return True`, `.error e` means it raised `e`. -/
def sendMessageBody : PostOutcome → Except (List Char) Unit
  | .ok => .ok ()
  | .badStatus => .error "HTTPError".data
  | .netError => .error "RequestException".data

/-- `send_telegram_message` (lines 24–37): run the body; the blanket
`except Exception` turns any raise into logging plus `return False`. -/
def send_telegram_message (postOutcome : PostOutcome) : Bool :=
  match sendMessageBody postOutcome with
  | .ok _ => true
  | .error _ => false

/-- What the `open` + `requests.post` calls inside `send_telegram_photo`
do; `fileError` = `open(photo_path, 'rb')` raises (unreadable file). -/
inductive PhotoOutcome where
  | ok
  | badStatus
  | netError
  | fileError
deriving DecidableEq

/-- The body of `send_telegram_photo`'s `try` block (lines 43–47). -/
def sendPhotoBody : PhotoOutcome → Except (List Char) Unit
  | .ok => .ok ()
  | .badStatus => .error "HTTPError".data
  | .netError => .error "RequestException".data
  | .fileError => .error "OSError".data

/-- `send_telegram_photo` (lines 40–50): same blanket-catch contract as
`send_telegram_message`. -/
def send_telegram_photo (photoOutcome : PhotoOutcome) : Bool :=
  match sendPhotoBody photoOutcome with
  | .ok _ => true
  | .error _ => false

/-! ## GitHub secret publisher (`update_github_secret`, lines 55–80) -/

/-- The JSON payload of the public-key endpoint: `{key, key_id}`. -/
structure KeyData where
  key : List Char
  key_id : List Char
deriving DecidableEq

/-- The JSON body of the PUT: `{encrypted_value, key_id}`. -/
structure PutBody where
  encrypted_value : List Char
  key_id : List Char
deriving DecidableEq

/-- Outcome of one `requests` call followed by `raise_for_status()`:
either a 2xx response with payload `α`, or a raise (non-2xx status or
network error — both surface as an exception at the call site). -/
inductive HttpResp (α : Type) where
  | ok (val : α)
  | failure
deriving DecidableEq

/-- One HTTP request issued by `update_github_secret`, in order. -/
inductive ReqEvent where
  | get (url : List Char)
  | put (url : List Char) (body : PutBody)
deriving DecidableEq

/-- Oracle for the GitHub REST API: how each endpoint answers. -/
structure GitHubApi where
  getResp : List Char → HttpResp KeyData
  putResp : List Char → PutBody → HttpResp Unit

/-- Abstract model of the PyNaCl / base64 calls of lines 70–73.  The
claims under verification are about the request protocol, not about the
cryptography, so the three functions are opaque parameters. -/
structure CryptoModel where
  b64decode : List Char → List Nat
  sealedBoxEncrypt : List Nat → List Char → List Nat
  b64encode : List Nat → List Char

/-- The public-key endpoint URL of line 64. -/
def githubKeyUrl (owner repo : List Char) : List Char :=
  "https://api.github.com/repos/".data ++ owner ++ "/".data ++ repo
    ++ "/actions/secrets/public-key".data

/-- The named-secret endpoint URL of line 76. -/
def githubSecretUrl (owner repo secret_name : List Char) : List Char :=
  "https://api.github.com/repos/".data ++ owner ++ "/".data ++ repo
    ++ "/actions/secrets/".data ++ secret_name

/-- `update_github_secret` (lines 55–80): GET the public key
(`raise_for_status`), encrypt, then PUT the envelope (`raise_for_status`).
Returns the exception-or-unit outcome together with the list of HTTP
requests actually issued, in order. -/
def update_github_secret (api : GitHubApi) (crypto : CryptoModel)
    (owner repo secret_name secret_value : List Char) :
    Except (List Char) Unit × List ReqEvent :=
  let key_url := githubKeyUrl owner repo
  match api.getResp key_url with
  | .failure => (.error "HTTPError".data, [.get key_url])
  | .ok key_data =>
      let public_key_bytes := crypto.b64decode key_data.key
      let encrypted := crypto.sealedBoxEncrypt public_key_bytes secret_value
      let encrypted_value := crypto.b64encode encrypted
      let update_url := githubSecretUrl owner repo secret_name
      let body : PutBody := { encrypted_value := encrypted_value, key_id := key_data.key_id }
      match api.putResp update_url body with
      | .failure => (.error "HTTPError".data, [.get key_url, .put update_url body])
      | .ok _ => (.ok (), [.get key_url, .put update_url body])

/-! ## Orchestrator (`main`, lines 139–213) -/

/-- The environment variables `main` reads.  `os.environ.get(name)` is
`Option`; `GITHUB_REPOSITORY` uses `os.environ.get(name, '')`, a plain
string defaulting to empty. -/
structure Env where
  zeabur_cookie : Option (List Char)
  repo_token : Option (List Char)
  github_repository : List Char
  tg_bot_token : Option (List Char)
  tg_chat_id : Option (List Char)

/-- Python truthiness of an `os.environ.get` result: `None` and the empty
string are falsy. -/
def truthyOpt : Option (List Char) → Bool
  | none => false
  | some s => !s.isEmpty

/-- Python truthiness of a string. -/
def truthyStr (s : List Char) : Bool := !s.isEmpty

/-- Oracles for everything `main` observes from the outside world.
`tgMsg`/`tgPhoto` give the outcome of the Telegram calls (the script's
control flow never depends on them; they only feed log lines, modelled by
`MainResult.notifyOk`). -/
structure Oracles where
  loginOutcomes : Nat → NavOutcome
  screenshotOk : Bool
  contextCookies : List CookieRecord
  api : GitHubApi
  crypto : CryptoModel
  tgMsg : PostOutcome
  tgPhoto : PhotoOutcome

/-- Observable events of one run, in order.  `navAttempt n` is attempt `n`
of the validator (a network navigation); `httpGet`/`httpPut` are the
secret-publisher requests; `tgText`/`tgPhoto` are Telegram deliveries;
`screenshot` is the local screenshot capture. -/
inductive RunEvent where
  | navAttempt (n : Nat)
  | httpGet (url : List Char)
  | httpPut (url : List Char)
  | tgText
  | tgPhoto
  | screenshot
deriving DecidableEq

/-- Project a publisher request onto a run event. -/
def reqToRunEvent : ReqEvent → RunEvent
  | .get url => .httpGet url
  | .put url _ => .httpPut url

/-- `owner, repo_name = repo.split('/')` (line 180): succeeds with the two
parts when the split yields exactly two pieces; any other shape makes the
tuple unpacking raise `ValueError`. -/
def repoParts (repo : List Char) : Option (List Char × List Char) :=
  match splitOnChar '/' repo with
  | [owner, repo_name] => some (owner, repo_name)
  | _ => none

/-- Result of one run: the process exit code, the event trace, and
`notifyOk` = the `msg_sent and photo_sent` log decision of line 198
(`some b` when the success-path notification block ran, `none` otherwise). -/
structure MainResult where
  exitCode : Nat
  events : List RunEvent
  notifyOk : Option Bool
deriving DecidableEq

/-- The Telegram send in the failure paths (lines 162–163 and 208–209):
one `send_telegram_message` call iff both Telegram variables are truthy. -/
def failNotifyEvents (env : Env) : List RunEvent :=
  if truthyOpt env.tg_bot_token && truthyOpt env.tg_chat_id then [.tgText] else []

/-- The success-path Telegram block (lines 186–203): when configured, one
text send then one photo send — the photo is attempted whatever the text
send returned, and the results are only compared for the log line. -/
def successNotify (env : Env) (o : Oracles) (events : List RunEvent) : MainResult :=
  if truthyOpt env.tg_bot_token && truthyOpt env.tg_chat_id then
    let msg_sent := send_telegram_message o.tgMsg
    let photo_sent := send_telegram_photo o.tgPhoto
    { exitCode := 0, events := events ++ [.tgText, .tgPhoto],
      notifyOk := some (msg_sent && photo_sent) }
  else
    { exitCode := 0, events := events, notifyOk := none }

/-- The secret-update step (lines 179–183) and what follows it: run
`update_github_secret`, record its HTTP requests; a failure propagates to
the top-level handler (best-effort notify, `sys.exit(1)`), success falls
through to the Telegram block. -/
def publishStep (env : Env) (o : Oracles) (owner repo_name : List Char)
    (events₁ : List RunEvent) : MainResult :=
  let pr := update_github_secret o.api o.crypto owner repo_name
    "ZEABUR_COOKIE".data (format_cookies o.contextCookies)
  let events₂ := events₁ ++ pr.2.map reqToRunEvent
  match pr.1 with
  | .error _ =>
      { exitCode := 1, events := events₂ ++ failNotifyEvents env, notifyOk := none }
  | .ok _ => successNotify env o events₂

/-- `main` (lines 139–213).  Control flow:
* line 146: missing/empty `ZEABUR_COOKIE` → `sys.exit(1)` before anything
  else (no network event);
* lines 156–164: run the validator; on failure, best-effort notify then
  `sys.exit(1)` (`SystemExit` is not an `Exception`, so the handler of
  line 205 does not catch it);
* line 170: the screenshot; if it raises, the top-level handler notifies
  and exits 1;
* lines 177–183: when `REPO_TOKEN`, repo slug, and the re-encoded cookie
  string are all truthy, `repo.split('/')` must yield exactly two parts
  (otherwise the tuple unpacking of line 180 raises `ValueError`) and
  `update_github_secret` runs; any raise propagates to the top-level
  handler → exit 1;
* lines 186–203: the Telegram block; never raises (both senders catch);
* normal fall-through → exit code 0. -/
def mainRun (env : Env) (o : Oracles) : MainResult :=
  if truthyOpt env.zeabur_cookie = false then
    { exitCode := 1, events := [], notifyOk := none }
  else
    let cookie_string := env.zeabur_cookie.getD []
    let r := login_with_cookie cookie_string o.loginOutcomes 2
    let navEvents := (List.range r.attempts).map RunEvent.navAttempt
    if r.success = false then
      { exitCode := 1, events := navEvents ++ failNotifyEvents env, notifyOk := none }
    else if o.screenshotOk = false then
      { exitCode := 1, events := navEvents ++ failNotifyEvents env, notifyOk := none }
    else
      let events₁ := navEvents ++ [RunEvent.screenshot]
      let new_cookie_string := format_cookies o.contextCookies
      if truthyOpt env.repo_token && truthyStr env.github_repository
          && truthyStr new_cookie_string then
        match repoParts env.github_repository with
        | some (owner, repo_name) => publishStep env o owner repo_name events₁
        | none =>
            { exitCode := 1, events := events₁ ++ failNotifyEvents env,
              notifyOk := none }
      else
        successNotify env o events₁

/-- Whether the publisher step completes without raising. -/
def publishOk (o : Oracles) (owner repo_name : List Char) : Bool :=
  match (update_github_secret o.api o.crypto owner repo_name
      "ZEABUR_COOKIE".data (format_cookies o.contextCookies)).1 with
  | .ok _ => true
  | .error _ => false

/-- "No unhandled exception occurs after a successful validation": the
screenshot succeeds, and — when the secret-publisher step is configured
and the re-encoded cookie string is non-empty — the repository slug splits
into exactly two parts and both publisher requests succeed. -/
def noPostException (env : Env) (o : Oracles) : Bool :=
  o.screenshotOk &&
    (if truthyOpt env.repo_token && truthyStr env.github_repository
        && truthyStr (format_cookies o.contextCookies) then
      match repoParts env.github_repository with
      | some (owner, repo_name) => publishOk o owner repo_name
      | none => false
    else true)

/-! ## Lemmas about the string primitives -/

theorem splitOnChar_ne_nil (sep : Char) (s : List Char) : splitOnChar sep s ≠ [] := by
  induction s with
  | nil => simp [splitOnChar]
  | cons c rest ih =>
    simp only [splitOnChar]
    split
    · simp
    · cases h : splitOnChar sep rest with
      | nil => simp
      | cons h t => simp

theorem splitOnChar_cons_sep (sep : Char) (s : List Char) :
    splitOnChar sep (sep :: s) = [] :: splitOnChar sep s := by
  simp [splitOnChar]

theorem splitOnChar_cons_ne (sep c : Char) (s : List Char) (hc : c ≠ sep) :
    ∃ h t, splitOnChar sep s = h :: t ∧ splitOnChar sep (c :: s) = (c :: h) :: t := by
  cases hs : splitOnChar sep s with
  | nil => exact absurd hs (splitOnChar_ne_nil sep s)
  | cons h t => exact ⟨h, t, rfl, by simp [splitOnChar, hc, hs]⟩

theorem splitOnChar_append_sep (sep : Char) (a b : List Char) :
    splitOnChar sep (a ++ sep :: b) = splitOnChar sep a ++ splitOnChar sep b := by
  induction a with
  | nil => simp [splitOnChar_cons_sep, splitOnChar]
  | cons c a ih =>
    by_cases hc : c = sep
    · subst hc
      simp only [List.cons_append, splitOnChar_cons_sep, ih, List.cons_append]
    · obtain ⟨h', t', hst', hres'⟩ := splitOnChar_cons_ne sep c a hc
      have hab : splitOnChar sep (a ++ sep :: b) = h' :: (t' ++ splitOnChar sep b) := by
        rw [ih, hst']; simp
      obtain ⟨h, t, hst, hres⟩ := splitOnChar_cons_ne sep c (a ++ sep :: b) hc
      rw [hab] at hst
      obtain ⟨rfl, rfl⟩ : h' = h ∧ t' ++ splitOnChar sep b = t := by
        simpa using hst
      rw [List.cons_append, hres, hres']
      simp

theorem splitOnChar_no_sep (sep : Char) (s : List Char) (h : sep ∉ s) :
    splitOnChar sep s = [s] := by
  induction s with
  | nil => rfl
  | cons c rest ih =>
    have hc : c ≠ sep := fun hc => h (hc ▸ List.mem_cons_self c rest)
    have hrest : sep ∉ rest := fun hr => h (List.mem_cons_of_mem c hr)
    obtain ⟨h', t', hst, hres⟩ := splitOnChar_cons_ne sep c rest hc
    rw [ih hrest] at hst
    obtain ⟨rfl, rfl⟩ : h' = rest ∧ t' = [] := by simpa using hst.symm
    simpa using hres

theorem mem_splitOnChar_not_mem (sep : Char) (s : List Char) (p : List Char)
    (hp : p ∈ splitOnChar sep s) : sep ∉ p := by
  induction s generalizing p with
  | nil =>
    simp only [splitOnChar, List.mem_singleton] at hp
    subst hp; simp
  | cons c rest ih =>
    by_cases hc : c = sep
    · subst hc
      rw [splitOnChar_cons_sep] at hp
      rcases List.mem_cons.mp hp with rfl | hp
      · simp
      · exact ih p hp
    · obtain ⟨h', t', hst, hres⟩ := splitOnChar_cons_ne sep c rest hc
      rw [hres] at hp
      rcases List.mem_cons.mp hp with rfl | hp
      · have hh : sep ∉ h' := ih h' (by rw [hst]; exact List.mem_cons_self h' t')
        intro hmem
        rcases List.mem_cons.mp hmem with hh' | hmem
        · exact hc hh'.symm
        · exact hh hmem
      · exact ih p (by rw [hst]; exact List.mem_cons_of_mem h' hp)

theorem splitFirst_eq_some (sep : Char) (s a b : List Char)
    (h : splitFirst sep s = some (a, b)) : s = a ++ sep :: b ∧ sep ∉ a := by
  induction s generalizing a b with
  | nil => simp [splitFirst] at h
  | cons c rest ih =>
    simp only [splitFirst] at h
    split at h
    · rename_i hc
      subst hc
      obtain ⟨rfl, rfl⟩ : ([] : List Char) = a ∧ rest = b := by
        constructor <;> (cases h; rfl)
      simp
    · rename_i hc
      cases hrest : splitFirst sep rest with
      | none => rw [hrest] at h; cases h
      | some ab =>
        obtain ⟨a', b'⟩ := ab
        rw [hrest] at h
        obtain ⟨rfl, rfl⟩ : c :: a' = a ∧ b' = b := by
          constructor <;> (cases h; rfl)
        obtain ⟨hs, hna⟩ := ih a' b' hrest
        subst hs
        refine ⟨rfl, ?_⟩
        intro hmem
        rcases List.mem_cons.mp hmem with hh | hmem
        · exact hc hh.symm
        · exact hna hmem

theorem splitFirst_none_of_not_mem (sep : Char) (s : List Char) (h : sep ∉ s) :
    splitFirst sep s = none := by
  induction s with
  | nil => rfl
  | cons c rest ih =>
    have hc : c ≠ sep := fun hc => h (hc ▸ List.mem_cons_self c rest)
    have h' : sep ∉ rest := fun hm => h (List.mem_cons_of_mem c hm)
    simp only [splitFirst, if_neg hc, ih h']

theorem splitFirst_ne_none_of_mem (sep : Char) (s : List Char) (h : sep ∈ s) :
    splitFirst sep s ≠ none := by
  induction s with
  | nil => cases h
  | cons c rest ih =>
    simp only [splitFirst]
    by_cases hc : c = sep
    · subst hc; simp
    · rw [if_neg hc]
      have hmem : sep ∈ rest := by
        rcases List.mem_cons.mp h with h1 | h1
        · exact absurd h1.symm hc
        · exact h1
      cases hrest : splitFirst sep rest with
      | none => exact absurd hrest (ih hmem)
      | some ab => simp

theorem splitFirst_eq_none_iff (sep : Char) (s : List Char) :
    splitFirst sep s = none ↔ sep ∉ s := by
  constructor
  · intro h hmem
    exact splitFirst_ne_none_of_mem sep s hmem h
  · exact splitFirst_none_of_not_mem sep s

theorem splitFirst_append (sep : Char) (a b : List Char) (ha : sep ∉ a) :
    splitFirst sep (a ++ sep :: b) = some (a, b) := by
  induction a with
  | nil => simp [splitFirst]
  | cons c a ih =>
    have hc : c ≠ sep := fun hc => ha (hc ▸ List.mem_cons_self c a)
    have ha' : sep ∉ a := fun hm => ha (List.mem_cons_of_mem c hm)
    simp [splitFirst, if_neg hc, ih ha']

/-! ## Lemmas about `stripChars` -/

theorem dropWhile_head_false {p : Char → Bool} {l h : List Char} {c : Char}
    (hd : List.dropWhile p l = c :: h) : p c = false := by
  induction l with
  | nil => cases hd
  | cons x xs ih =>
    rw [List.dropWhile_cons] at hd
    split at hd
    · exact ih hd
    · rename_i hx
      obtain ⟨rfl, rfl⟩ : x = c ∧ xs = h := by
        constructor <;> (cases hd; rfl)
      simpa using hx

theorem dropWhile_dropWhile (p : Char → Bool) (l : List Char) :
    List.dropWhile p (List.dropWhile p l) = List.dropWhile p l := by
  cases hd : List.dropWhile p l with
  | nil => rfl
  | cons c t => rw [List.dropWhile_cons, dropWhile_head_false hd]; simp

theorem mem_dropWhile_of_not {p : Char → Bool} {c : Char} {l : List Char}
    (hc : p c = false) (hmem : c ∈ l) : c ∈ List.dropWhile p l := by
  induction l with
  | nil => cases hmem
  | cons x xs ih =>
    rw [List.dropWhile_cons]
    split
    · rename_i hx
      rcases List.mem_cons.mp hmem with rfl | hmem
      · rw [hx] at hc; cases hc
      · exact ih hmem
    · exact hmem

theorem stripChars_subset {c : Char} {s : List Char} (h : c ∈ stripChars s) : c ∈ s := by
  unfold stripChars at h
  rw [List.mem_reverse] at h
  have h1 := (List.dropWhile_sublist (l := (s.dropWhile Char.isWhitespace).reverse)
    Char.isWhitespace).subset h
  rw [List.mem_reverse] at h1
  exact (List.dropWhile_sublist (l := s) Char.isWhitespace).subset h1

theorem mem_stripChars_of_not {c : Char} {s : List Char}
    (hc : c.isWhitespace = false) (hmem : c ∈ s) : c ∈ stripChars s := by
  unfold stripChars
  rw [List.mem_reverse]
  exact mem_dropWhile_of_not hc (List.mem_reverse.mpr (mem_dropWhile_of_not hc hmem))

theorem stripChars_eq_self_of (s : List Char)
    (h1 : s.dropWhile Char.isWhitespace = s)
    (h2 : s.reverse.dropWhile Char.isWhitespace = s.reverse) :
    stripChars s = s := by
  unfold stripChars
  rw [h1, h2, List.reverse_reverse]

theorem dropWhile_of_stripChars_eq {s : List Char} (h : stripChars s = s) :
    s.dropWhile Char.isWhitespace = s := by
  have hsub : (s.dropWhile Char.isWhitespace).Sublist s :=
    List.dropWhile_sublist Char.isWhitespace
  refine hsub.eq_of_length ?_
  have hlen1 : (stripChars s).length ≤ (s.dropWhile Char.isWhitespace).length := by
    unfold stripChars
    rw [List.length_reverse]
    calc ((s.dropWhile Char.isWhitespace).reverse.dropWhile Char.isWhitespace).length
        ≤ (s.dropWhile Char.isWhitespace).reverse.length :=
          (List.dropWhile_sublist Char.isWhitespace).length_le
      _ = (s.dropWhile Char.isWhitespace).length := List.length_reverse _
  have hlen2 : (s.dropWhile Char.isWhitespace).length ≤ s.length := hsub.length_le
  rw [h] at hlen1
  omega

theorem reverse_dropWhile_of_stripChars_eq {s : List Char} (h : stripChars s = s) :
    s.reverse.dropWhile Char.isWhitespace = s.reverse := by
  have h1 : s.dropWhile Char.isWhitespace = s := dropWhile_of_stripChars_eq h
  have h2 : stripChars s = (s.reverse.dropWhile Char.isWhitespace).reverse := by
    unfold stripChars; rw [h1]
  rw [h] at h2
  have := congrArg List.reverse h2
  rw [List.reverse_reverse] at this
  exact this.symm

/-- The stripped string is a prefix of `dropWhile isWhitespace s`. -/
theorem stripChars_prefix (s : List Char) :
    stripChars s <+: s.dropWhile Char.isWhitespace := by
  unfold stripChars
  rw [← List.reverse_suffix, List.reverse_reverse]
  exact List.dropWhile_suffix Char.isWhitespace

theorem stripChars_idem (s : List Char) : stripChars (stripChars s) = stripChars s := by
  refine stripChars_eq_self_of _ ?_ ?_
  · cases hS : stripChars s with
    | nil => rfl
    | cons c t =>
      have hpre := stripChars_prefix s
      rw [hS] at hpre
      obtain ⟨u, hu⟩ := hpre
      have hc : Char.isWhitespace c = false := dropWhile_head_false (l := s) hu.symm
      rw [List.dropWhile_cons, hc]
      simp
  · have : stripChars s = ((s.dropWhile Char.isWhitespace).reverse.dropWhile
        Char.isWhitespace).reverse := rfl
    rw [this, List.reverse_reverse]
    exact dropWhile_dropWhile _ _

theorem stripChars_cons_ws {c : Char} (s : List Char) (hc : c.isWhitespace = true) :
    stripChars (c :: s) = stripChars s := by
  unfold stripChars
  rw [List.dropWhile_cons, hc]
  simp

/-- Stripping a well-formed `name=value` rendering is the identity:
the name has no leading whitespace and the value no trailing whitespace
(both are strip-invariant), and `'='` itself is not whitespace. -/
theorem stripChars_entry {n v : List Char}
    (hn : stripChars n = n) (hv : stripChars v = v) :
    stripChars (n ++ '=' :: v) = n ++ '=' :: v := by
  have heq : Char.isWhitespace '=' = false := by decide
  refine stripChars_eq_self_of _ ?_ ?_
  · cases hncase : n with
    | nil =>
      subst hncase
      simp only [List.nil_append, List.dropWhile_cons, heq]
      simp
    | cons c t =>
      subst hncase
      have hdn : List.dropWhile Char.isWhitespace (c :: t) = c :: t :=
        dropWhile_of_stripChars_eq hn
      rw [List.cons_append, List.dropWhile_cons, dropWhile_head_false hdn]
      simp
  · rw [List.reverse_append]
    simp only [List.reverse_cons]
    rw [List.append_assoc]
    cases hvcase : v with
    | nil =>
      subst hvcase
      simp only [List.reverse_nil, List.nil_append, List.dropWhile_cons, heq]
      simp
    | cons c t =>
      subst hvcase
      have hdv : List.dropWhile Char.isWhitespace (c :: t).reverse = (c :: t).reverse :=
        reverse_dropWhile_of_stripChars_eq hv
      have hemp : ((c :: t).reverse).isEmpty = false := by simp
      rw [List.dropWhile_append, hdv, hemp]
      simp

/-! ## Codec lemmas -/

/-- A record whose round-trip through the codec is faithful: it is kept by
`format_cookies`' domain filter, its name and value contain no `';'`, its
name contains no `'='`, and name and value carry no leading or trailing
whitespace. -/
def WfRecord (r : CookieRecord) : Prop :=
  containsStr "zeabur.com".data r.domain = true ∧
  ';' ∉ r.name ∧ ';' ∉ r.value ∧ '=' ∉ r.name ∧
  stripChars r.name = r.name ∧ stripChars r.value = r.value

instance (r : CookieRecord) : Decidable (WfRecord r) := by
  unfold WfRecord; exact inferInstance

theorem parse_cookies_append (a b : List Char) :
    parse_cookies (a ++ ';' :: b) = parse_cookies a ++ parse_cookies b := by
  unfold parse_cookies
  rw [splitOnChar_append_sep, List.filterMap_append]

theorem parse_cookies_cons_space (s : List Char) :
    parse_cookies (' ' :: s) = parse_cookies s := by
  unfold parse_cookies
  obtain ⟨h, t, hst, hres⟩ := splitOnChar_cons_ne ';' ' ' s (by decide)
  rw [hres, hst, List.filterMap_cons, List.filterMap_cons,
    stripChars_cons_ws h (by decide)]

/-- A single well-formed segment `name=value` decodes to exactly the
record `parse_cookies` builds for it. -/
theorem parse_cookies_entry (n v : List Char) (hn : stripChars n = n)
    (hv : stripChars v = v) (hne : '=' ∉ n) (hns : ';' ∉ n) (hvs : ';' ∉ v) :
    parse_cookies (n ++ '=' :: v) =
      [{ name := n, value := v, domain := ".zeabur.com".data, path := "/".data }] := by
  unfold parse_cookies
  have hsep : ';' ∉ n ++ '=' :: v := by
    intro hmem
    rcases List.mem_append.mp hmem with hmem | hmem
    · exact hns hmem
    · rcases List.mem_cons.mp hmem with hmem | hmem
      · cases hmem
      · exact hvs hmem
  rw [splitOnChar_no_sep ';' _ hsep, List.filterMap_cons]
  rw [stripChars_entry hn hv, splitFirst_append '=' n v hne]
  simp [hn, hv]

theorem parse_cookies_nil : parse_cookies [] = [] := rfl

/-- Every record `parse_cookies` produces is well-formed: fixed domain and
path, no `';'` or `'='` where they would break re-parsing, and
strip-invariant name and value. -/
theorem parse_cookies_wf (s : List Char) (r : CookieRecord)
    (hr : r ∈ parse_cookies s) :
    WfRecord r ∧ r.domain = ".zeabur.com".data ∧ r.path = "/".data := by
  unfold parse_cookies at hr
  rw [List.mem_filterMap] at hr
  obtain ⟨piece, hpiece, hmk⟩ := hr
  cases hsf : splitFirst '=' (stripChars piece) with
  | none => rw [hsf] at hmk; cases hmk
  | some ab =>
    obtain ⟨n, v⟩ := ab
    rw [hsf] at hmk
    obtain ⟨hs, hne⟩ := splitFirst_eq_some '=' (stripChars piece) n v hsf
    have hr_eq : r = { name := stripChars n, value := stripChars v,
                       domain := ".zeabur.com".data, path := "/".data } := by
      cases hmk; rfl
    have hsep : ';' ∉ piece := mem_splitOnChar_not_mem ';' s piece hpiece
    have hsepstrip : ';' ∉ stripChars piece := fun hmem => hsep (stripChars_subset hmem)
    have hnsub : ∀ c, c ∈ n → c ∈ stripChars piece := by
      intro c hc
      rw [hs]
      exact List.mem_append.mpr (Or.inl hc)
    have hvsub : ∀ c, c ∈ v → c ∈ stripChars piece := by
      intro c hc
      rw [hs]
      exact List.mem_append.mpr (Or.inr (List.mem_cons_of_mem _ hc))
    subst hr_eq
    refine ⟨⟨?_, ?_, ?_, ?_, stripChars_idem n, stripChars_idem v⟩, rfl, rfl⟩
    · show containsStr "zeabur.com".data ".zeabur.com".data = true
      decide
    · exact fun hmem => hsepstrip (hnsub ';' (stripChars_subset hmem))
    · exact fun hmem => hsepstrip (hvsub ';' (stripChars_subset hmem))
    · exact fun hmem => hne (stripChars_subset hmem)

/-- When every record passes the domain filter, `format_cookies` is the
plain join of the `name=value` renderings. -/
theorem format_cookies_all_kept (rs : List CookieRecord)
    (h : ∀ r ∈ rs, containsStr "zeabur.com".data r.domain = true) :
    format_cookies rs = joinSep "; ".data (rs.map fun c => c.name ++ '=' :: c.value) := by
  unfold format_cookies
  rw [List.filter_eq_self.mpr h]

/-- Core round-trip: decoding the encoding of a list of well-formed records
recovers each record, with the codec's fixed domain and path. -/
theorem parse_format_cookies (rs : List CookieRecord) (h : ∀ r ∈ rs, WfRecord r) :
    parse_cookies (format_cookies rs) =
      rs.map fun r => { name := r.name, value := r.value,
                        domain := ".zeabur.com".data, path := "/".data } := by
  rw [format_cookies_all_kept rs (fun r hr => (h r hr).1)]
  induction rs with
  | nil => rfl
  | cons r rs ih =>
    obtain ⟨_, hns, hvs, hne, hn, hv⟩ := h r (List.mem_cons_self r rs)
    have hrest := fun r' hr' => h r' (List.mem_cons_of_mem r hr')
    cases rs with
    | nil =>
      simp only [List.map_cons, List.map_nil, joinSep]
      rw [parse_cookies_entry r.name r.value hn hv hne hns hvs]
    | cons r' rs' =>
      have hjoin : joinSep "; ".data ((r :: r' :: rs').map fun c => c.name ++ '=' :: c.value) =
          (r.name ++ '=' :: r.value) ++ ';' ::
            (' ' :: joinSep "; ".data ((r' :: rs').map fun c => c.name ++ '=' :: c.value)) := by
        simp only [List.map_cons, joinSep]
        simp [List.append_assoc]
      rw [hjoin, parse_cookies_append, parse_cookies_cons_space,
        parse_cookies_entry r.name r.value hn hv hne hns hvs, ih hrest]
      rfl

/-! ## Validator loop lemmas -/

/-- Full characterization of the retry loop from iteration `attempt` on,
with `fuel` iterations left. -/
def LoginSpecP (outcomes : Nat → NavOutcome) (max_retries fuel attempt : Nat)
    (r : LoginResult) : Prop :=
  (attempt ≤ r.attempts ∧ r.attempts ≤ max_retries + 1) ∧
  (1 ≤ fuel → attempt < r.attempts) ∧
  (r.success = false →
    r.attempts = max_retries + 1 ∧ r.page = max_retries + 1 ∧
    r.opened = List.range' attempt (fuel + 1) ∧
    r.closed = List.range' attempt fuel) ∧
  (r.success = true →
    r.page + 1 = r.attempts ∧ attempt ≤ r.page ∧
    (∃ url, outcomes r.page = NavOutcome.nav url ∧ containsStr loginSeg url = false) ∧
    r.opened = List.range' attempt (r.attempts - attempt) ∧
    r.closed = List.range' attempt (r.attempts - 1 - attempt)) ∧
  r.sleeps = (List.range' attempt (r.attempts - 1 - attempt)).map (fun i => 5 * (i + 1)) ∧
  (∀ i, attempt ≤ i → i + (if r.success = true then 1 else 0) < r.attempts →
    failedOutcome (outcomes i) = true)

/-- One failed iteration preserves the loop characterization. -/
theorem loginFailStep_spec (outcomes : Nat → NavOutcome) (max_retries fuel attempt : Nat)
    (h : attempt + (fuel + 1) = max_retries + 1)
    (hfail : failedOutcome (outcomes attempt) = true)
    (ihspec : LoginSpecP outcomes max_retries fuel (attempt + 1)
      (loginAux outcomes max_retries (attempt + 1) fuel)) :
    LoginSpecP outcomes max_retries (fuel + 1) attempt
      (loginFailStep max_retries attempt
        (loginAux outcomes max_retries (attempt + 1) fuel)) := by
  set r' := loginAux outcomes max_retries (attempt + 1) fuel with hr'
  obtain ⟨⟨ih1a, ih1b⟩, ih2, ih3, ih4, ih5, ih6⟩ := ihspec
  have hattle : attempt + 1 ≤ r'.attempts := ih1a
  have hA : (loginFailStep max_retries attempt r').attempts = r'.attempts := by
    simp [loginFailStep]
  have hS : (loginFailStep max_retries attempt r').success = r'.success := by
    simp [loginFailStep]
  have hP : (loginFailStep max_retries attempt r').page = r'.page := by
    simp [loginFailStep]
  have hO : (loginFailStep max_retries attempt r').opened = attempt :: r'.opened := by
    simp [loginFailStep]
  have hC : (loginFailStep max_retries attempt r').closed = attempt :: r'.closed := by
    simp [loginFailStep]
  have hSl : (loginFailStep max_retries attempt r').sleeps =
      (if attempt < max_retries then [5 * (attempt + 1)] else []) ++ r'.sleeps := by
    simp [loginFailStep]
  have hge2 : r'.success = true → attempt + 2 ≤ r'.attempts := by
    intro hs
    obtain ⟨hpg, hple, _, _, _⟩ := ih4 hs
    omega
  refine ⟨⟨by rw [hA]; omega, by rw [hA]; exact ih1b⟩,
    fun _ => by rw [hA]; omega, ?_, ?_, ?_, ?_⟩
  · intro hf
    rw [hS] at hf
    obtain ⟨hatt, hpage, hop, hcl⟩ := ih3 hf
    refine ⟨by rw [hA]; exact hatt, by rw [hP]; exact hpage, ?_, ?_⟩
    · rw [hO, hop]; simp [List.range'_succ]
    · rw [hC, hcl]; simp [List.range'_succ]
  · intro hs
    rw [hS] at hs
    obtain ⟨hpg, hple, hex, hop, hcl⟩ := ih4 hs
    have h2 : attempt + 2 ≤ r'.attempts := hge2 hs
    refine ⟨by rw [hA, hP]; exact hpg, by rw [hP]; omega, ?_, ?_, ?_⟩
    · rw [hP]; exact hex
    · rw [hO, hA, hop]
      have hcount : r'.attempts - attempt = (r'.attempts - (attempt + 1)) + 1 := by omega
      rw [hcount, List.range'_succ]
    · rw [hC, hA, hcl]
      have hcount : r'.attempts - 1 - attempt = (r'.attempts - 1 - (attempt + 1)) + 1 := by
        omega
      rw [hcount, List.range'_succ]
  · rw [hSl, hA, ih5]
    by_cases hlt : attempt < max_retries
    · have h2 : attempt + 2 ≤ r'.attempts := by
        cases hs : r'.success
        · obtain ⟨hatt, _, _, _⟩ := ih3 hs
          omega
        · exact hge2 hs
      rw [if_pos hlt]
      have hcount : r'.attempts - 1 - attempt = (r'.attempts - 1 - (attempt + 1)) + 1 := by
        omega
      rw [hcount, List.range'_succ, List.map_cons]
      rfl
    · have hattmax : attempt = max_retries := by omega
      have hattend : r'.attempts = attempt + 1 := by omega
      rw [if_neg hlt, hattend]
      simp
  · intro i hi hlt
    rw [hA, hS] at hlt
    rcases Nat.eq_or_lt_of_le hi with rfl | hgt
    · exact hfail
    · exact ih6 i (by omega) hlt

theorem loginAux_spec (outcomes : Nat → NavOutcome) (max_retries : Nat) :
    ∀ fuel attempt, attempt + fuel = max_retries + 1 →
      LoginSpecP outcomes max_retries fuel attempt
        (loginAux outcomes max_retries attempt fuel) := by
  intro fuel
  induction fuel with
  | zero =>
    intro attempt h
    have hatt : attempt = max_retries + 1 := by omega
    refine ⟨⟨le_refl _, by simp [loginAux, hatt]⟩, by omega, ?_, ?_, ?_, ?_⟩
    · intro _
      refine ⟨by simp [loginAux, hatt], by simp [loginAux, hatt], ?_, ?_⟩
      · show [attempt] = List.range' attempt (0 + 1)
        simp
      · rfl
    · intro hsucc
      simp [loginAux] at hsucc
    · show ([] : List Nat) = (List.range' attempt (attempt - 1 - attempt)).map _
      simp [Nat.sub_sub, Nat.sub_self]
    · intro i hi hlt
      simp only [loginAux] at hlt
      simp at hlt
      omega
  | succ fuel ih =>
    intro attempt h
    have h' : (attempt + 1) + fuel = max_retries + 1 := by omega
    have ihspec := ih (attempt + 1) h'
    cases hout : outcomes attempt with
    | nav url =>
      by_cases hurl : containsStr loginSeg url = false
      · -- authenticated on this attempt
        have hres : loginAux outcomes max_retries attempt (fuel + 1) =
            { page := attempt, success := true, attempts := attempt + 1,
              opened := [attempt], closed := [], sleeps := [] } := by
          simp [loginAux, hout, hurl]
        rw [hres]
        refine ⟨⟨Nat.le_succ attempt, by show attempt + 1 ≤ max_retries + 1; omega⟩,
          fun _ => Nat.lt_succ_self attempt, ?_, ?_, ?_, ?_⟩
        · intro hfalse
          simp at hfalse
        · intro _
          refine ⟨rfl, le_refl _, ⟨url, hout, hurl⟩, ?_, ?_⟩
          · show [attempt] = List.range' attempt (attempt + 1 - attempt)
            simp [Nat.add_sub_cancel_left, List.range'_one]
          · show ([] : List Nat) = List.range' attempt (attempt + 1 - 1 - attempt)
            simp
        · show ([] : List Nat) = (List.range' attempt (attempt + 1 - 1 - attempt)).map _
          simp
        · intro i hi hlt
          simp at hlt
          omega
      · -- redirected to the login page: failure path
        have hres : loginAux outcomes max_retries attempt (fuel + 1) =
            loginFailStep max_retries attempt
              (loginAux outcomes max_retries (attempt + 1) fuel) := by
          simp [loginAux, hout, hurl]
        rw [hres]
        exact loginFailStep_spec outcomes max_retries fuel attempt h
          (by simp [failedOutcome, hout]; revert hurl; cases containsStr loginSeg url <;> simp)
          ihspec
    | err =>
      have hres : loginAux outcomes max_retries attempt (fuel + 1) =
          loginFailStep max_retries attempt
            (loginAux outcomes max_retries (attempt + 1) fuel) := by
        simp [loginAux, hout]
      rw [hres]
      exact loginFailStep_spec outcomes max_retries fuel attempt h
        (by simp [failedOutcome, hout]) ihspec

theorem login_with_cookie_spec (cookie_string : List Char)
    (outcomes : Nat → NavOutcome) (max_retries : Nat) :
    LoginSpecP outcomes max_retries (max_retries + 1) 0
      (login_with_cookie cookie_string outcomes max_retries) := by
  have h := loginAux_spec outcomes max_retries (max_retries + 1) 0 (by omega)
  unfold login_with_cookie
  exact h

/-! ## Claim C1 -/

/-- **C1** (Session Validator URL classification): for every run of the
validator, if it succeeds then the deciding attempt's navigation ended at a
URL not containing `'/login'` and the returned page — the one opened by
that attempt — was never closed; every previously opened attempt page
(pages `0, …, page-1`) was closed, in order, before the next attempt
began; on a failed run every attempt page (`0, …, attempts-1`) was closed;
and every closed page belongs to an attempt classified as a failure
(URL containing `'/login'`, or a navigation error). -/
theorem C1_url_classification (cookie_string : List Char)
    (outcomes : Nat → NavOutcome) (max_retries : Nat) (r : LoginResult)
    (hr : r = login_with_cookie cookie_string outcomes max_retries) :
    (r.success = true →
      (∃ url, outcomes r.page = NavOutcome.nav url ∧
        containsStr loginSeg url = false) ∧
      r.closed = List.range r.page ∧ r.page ∉ r.closed) ∧
    (r.success = false → r.closed = List.range r.attempts) ∧
    (∀ i ∈ r.closed, failedOutcome (outcomes i) = true) := by
  have hspec := login_with_cookie_spec cookie_string outcomes max_retries
  rw [← hr] at hspec
  obtain ⟨⟨h1a, h1b⟩, h2, h3, h4, h5, h6⟩ := hspec
  refine ⟨?_, ?_, ?_⟩
  · intro hs
    obtain ⟨hpg, _, hex, _, hcl⟩ := h4 hs
    have hclr : r.closed = List.range r.page := by
      rw [hcl, List.range_eq_range']
      congr 1
      omega
    refine ⟨hex, hclr, ?_⟩
    rw [hclr]
    exact List.not_mem_range_self
  · intro hf
    obtain ⟨hatt, _, _, hcl⟩ := h3 hf
    rw [hcl, List.range_eq_range', hatt]
  · intro i hi
    cases hs : r.success
    · obtain ⟨hatt, _, _, hcl⟩ := h3 hs
      rw [hcl, List.mem_range'_1] at hi
      refine h6 i (by omega) ?_
      have hite : (if r.success = true then 1 else 0) = 0 := by
        rw [hs]; simp
      omega
    · obtain ⟨hpg, _, _, _, hcl⟩ := h4 hs
      rw [hcl, List.mem_range'_1] at hi
      refine h6 i (by omega) ?_
      have hite : (if r.success = true then 1 else 0) = 1 := by
        rw [hs]; simp
      omega

/-- Witness for C1: with a script that redirects to the login page on
attempt 0 and authenticates on attempt 1, the run succeeds, exactly page 0
was closed, and the returned page 1 was not. -/
theorem C1_url_classification_witness :
    (login_with_cookie [] (fun i => if i = 0
        then NavOutcome.nav "https://zeabur.com/login".data
        else NavOutcome.nav "https://zeabur.com/projects".data) 2).success = true ∧
    (login_with_cookie [] (fun i => if i = 0
        then NavOutcome.nav "https://zeabur.com/login".data
        else NavOutcome.nav "https://zeabur.com/projects".data) 2).closed =
      List.range (login_with_cookie [] (fun i => if i = 0
        then NavOutcome.nav "https://zeabur.com/login".data
        else NavOutcome.nav "https://zeabur.com/projects".data) 2).page ∧
    (login_with_cookie [] (fun i => if i = 0
        then NavOutcome.nav "https://zeabur.com/login".data
        else NavOutcome.nav "https://zeabur.com/projects".data) 2).page ∉
      (login_with_cookie [] (fun i => if i = 0
        then NavOutcome.nav "https://zeabur.com/login".data
        else NavOutcome.nav "https://zeabur.com/projects".data) 2).closed := by
  have h := C1_url_classification [] (fun i => if i = 0
    then NavOutcome.nav "https://zeabur.com/login".data
    else NavOutcome.nav "https://zeabur.com/projects".data) 2 _ rfl
  have hs : (login_with_cookie [] (fun i => if i = 0
      then NavOutcome.nav "https://zeabur.com/login".data
      else NavOutcome.nav "https://zeabur.com/projects".data) 2).success = true := by
    decide
  exact ⟨hs, (h.1 hs).2.1, (h.1 hs).2.2⟩

/-! ## Claim C2 -/

/-- **C2** (retry policy): with the default `max_retries = 2`, every run
performs between 1 and 3 attempts, and the recorded sleeps are exactly
`5 * n` seconds before retry `n` for `n = 1, …, attempts - 1` — i.e. one
sleep between consecutive attempts and none before the first attempt,
lasting 5 s after the first failed attempt and 10 s after the second. -/
theorem C2_retry_policy (cookie_string : List Char) (outcomes : Nat → NavOutcome)
    (r : LoginResult) (hr : r = login_with_cookie cookie_string outcomes 2) :
    1 ≤ r.attempts ∧ r.attempts ≤ 3 ∧
    r.sleeps = (List.range (r.attempts - 1)).map (fun n => 5 * (n + 1)) := by
  have hspec := login_with_cookie_spec cookie_string outcomes 2
  rw [← hr] at hspec
  obtain ⟨⟨h1a, h1b⟩, h2, h3, h4, h5, h6⟩ := hspec
  refine ⟨by have := h2 (by omega); omega, h1b, ?_⟩
  rw [h5, List.range_eq_range']
  congr 1

/-- Witness for C2: with every attempt erroring, the validator performs 3
attempts and sleeps exactly 5 s then 10 s. -/
theorem C2_retry_policy_witness :
    (login_with_cookie [] (fun _ => NavOutcome.err) 2).sleeps = [5, 10] ∧
    (login_with_cookie [] (fun _ => NavOutcome.err) 2).attempts = 3 := by
  have h := C2_retry_policy [] (fun _ => NavOutcome.err) _ rfl
  constructor
  · rw [h.2.2]
    decide
  · decide

/-! ## Claim C3 -/

/-- **C3** (exhaustion postcondition): if every one of the
`max_retries + 1` possible attempts is a failure (login redirect or
navigation error), the validator returns failure, performed exactly
`max_retries + 1` attempts, and the returned page handle is the freshly
opened page `max_retries + 1`, which does appear among the opened pages —
so the caller always receives a defined page handle to close. -/
theorem C3_exhaustion (cookie_string : List Char) (outcomes : Nat → NavOutcome)
    (max_retries : Nat)
    (hfail : ∀ i, i ≤ max_retries → failedOutcome (outcomes i) = true)
    (r : LoginResult) (hr : r = login_with_cookie cookie_string outcomes max_retries) :
    r.success = false ∧ r.attempts = max_retries + 1 ∧
    r.page = max_retries + 1 ∧ r.page ∈ r.opened := by
  have hspec := login_with_cookie_spec cookie_string outcomes max_retries
  rw [← hr] at hspec
  obtain ⟨⟨h1a, h1b⟩, h2, h3, h4, h5, h6⟩ := hspec
  have hs : r.success = false := by
    cases hs : r.success
    · rfl
    · exfalso
      obtain ⟨hpg, hple, ⟨url, hurl, hcon⟩, _, _⟩ := h4 hs
      have hpage_le : r.page ≤ max_retries := by omega
      have hfo := hfail r.page hpage_le
      rw [hurl] at hfo
      simp only [failedOutcome] at hfo
      rw [hfo] at hcon
      cases hcon
  obtain ⟨hatt, hpage, hop, _⟩ := h3 hs
  refine ⟨hs, hatt, hpage, ?_⟩
  rw [hop, hpage, List.mem_range'_1]
  omega

/-- Witness for C3: with every attempt erroring and `max_retries = 2`, the
run fails after 3 attempts and returns the fresh page 3, which was opened. -/
theorem C3_exhaustion_witness :
    (login_with_cookie [] (fun _ => NavOutcome.err) 2).success = false ∧
    (login_with_cookie [] (fun _ => NavOutcome.err) 2).attempts = 3 ∧
    (login_with_cookie [] (fun _ => NavOutcome.err) 2).page = 3 ∧
    (login_with_cookie [] (fun _ => NavOutcome.err) 2).page ∈
      (login_with_cookie [] (fun _ => NavOutcome.err) 2).opened := by
  have h := C3_exhaustion [] (fun _ => NavOutcome.err) 2 (fun i _ => rfl) _ rfl
  exact ⟨h.1, h.2.1, h.2.2.1, h.2.2.2⟩

/-! ## Claim C6 -/

/-- **C6** (codec filtering): a record whose domain does not contain the
substring `'zeabur.com'` contributes nothing to `format_cookies`' output,
wherever it occurs in the input list. -/
theorem C6_codec_filtering (rs₁ rs₂ : List CookieRecord) (r : CookieRecord)
    (h : containsStr "zeabur.com".data r.domain = false) :
    format_cookies (rs₁ ++ r :: rs₂) = format_cookies (rs₁ ++ rs₂) := by
  unfold format_cookies
  rw [List.filter_append, List.filter_append, List.filter_cons, h]
  simp

/-- Witness for C6: a record with domain `evil.example.org` is dropped
from the encoding. -/
theorem C6_codec_filtering_witness :
    containsStr "zeabur.com".data "evil.example.org".data = false ∧
    format_cookies
      [{ name := "a".data, value := "1".data,
         domain := ".zeabur.com".data, path := "/".data },
       { name := "t".data, value := "2".data,
         domain := "evil.example.org".data, path := "/".data }] =
    format_cookies
      [{ name := "a".data, value := "1".data,
         domain := ".zeabur.com".data, path := "/".data }] := by
  refine ⟨by decide, ?_⟩
  have h := C6_codec_filtering
    [{ name := "a".data, value := "1".data,
       domain := ".zeabur.com".data, path := "/".data }] []
    { name := "t".data, value := "2".data,
      domain := "evil.example.org".data, path := "/".data } (by decide)
  simpa using h

/-! ## Claim C7 -/

/-- **C7** (decode tolerance of malformed input): decoding distributes over
`';'`-separated pieces (so one malformed segment cannot fail the rest); a
segment without `'='` — including the empty segment — decodes to nothing;
and a segment containing `'='` decodes to exactly one record.  `decode`
is a total function: no input raises. -/
theorem C7_decode_tolerance (a b seg : List Char) :
    (parse_cookies (a ++ ';' :: b) = parse_cookies a ++ parse_cookies b) ∧
    (';' ∉ seg → '=' ∉ seg → parse_cookies seg = []) ∧
    (';' ∉ seg → '=' ∈ seg → (parse_cookies seg).length = 1) := by
  refine ⟨parse_cookies_append a b, ?_, ?_⟩
  · intro hsep heq
    unfold parse_cookies
    rw [splitOnChar_no_sep ';' seg hsep, List.filterMap_cons]
    have hnone : splitFirst '=' (stripChars seg) = none := by
      rw [splitFirst_eq_none_iff]
      intro hmem
      exact heq (stripChars_subset hmem)
    rw [hnone]
    rfl
  · intro hsep heq
    unfold parse_cookies
    rw [splitOnChar_no_sep ';' seg hsep, List.filterMap_cons]
    have hmem : '=' ∈ stripChars seg := mem_stripChars_of_not (by decide) heq
    cases hsf : splitFirst '=' (stripChars seg) with
    | none =>
      rw [splitFirst_eq_none_iff] at hsf
      exact absurd hmem hsf
    | some ab =>
      obtain ⟨n, v⟩ := ab
      rfl

/-- Witness for C7: `"a=1;junk"` decodes compositionally, the malformed
segment `" junk "` is dropped, and the well-formed segment `" a = 1 "`
yields exactly one record. -/
theorem C7_decode_tolerance_witness :
    parse_cookies ("a=1".data ++ ';' :: "junk".data) =
      parse_cookies "a=1".data ++ parse_cookies "junk".data ∧
    parse_cookies " junk ".data = [] ∧
    (parse_cookies " a = 1 ".data).length = 1 := by
  have h := C7_decode_tolerance "a=1".data "junk".data " junk ".data
  have h2 := C7_decode_tolerance "a=1".data "junk".data " a = 1 ".data
  exact ⟨h.1, h.2.1 (by decide) (by decide), h2.2.2 (by decide) (by decide)⟩

/-! ## Claim C5 -/

/-- **C5, counterexample**: the round-trip claim fails as stated.  The
record `{name := "a", value := "b;c"}` belongs to the target domain, but
`decode (encode [r])` yields the pair `("a", "b")` instead of
`("a", "b;c")` — the `';'` inside the value is re-split as a segment
separator — so the result is not an equivalent set of name/value pairs
(not even up to permutation). -/
theorem C5_roundtrip_counterexample :
    containsStr "zeabur.com".data
      ({ name := "a".data, value := "b;c".data,
         domain := ".zeabur.com".data, path := "/".data } : CookieRecord).domain = true ∧
    ¬ ((parse_cookies (format_cookies
        [{ name := "a".data, value := "b;c".data,
           domain := ".zeabur.com".data, path := "/".data }])).map
          (fun r => (r.name, r.value))).Perm
        (([{ name := "a".data, value := "b;c".data,
             domain := ".zeabur.com".data, path := "/".data }] :
            List CookieRecord).map (fun r => (r.name, r.value))) := by
  decide

/-- **C5, amended** (codec round-trip): for every list of cookie records
whose domains contain the target-domain substring AND whose names and
values contain no `';'`, names contain no `'='`, and names and values
carry no leading or trailing whitespace, decoding the encoding yields
exactly the same name/value pairs (in the same order, hence the same
set). -/
theorem C5_roundtrip_amended (rs : List CookieRecord) (h : ∀ r ∈ rs, WfRecord r) :
    (parse_cookies (format_cookies rs)).map (fun r => (r.name, r.value)) =
      rs.map (fun r => (r.name, r.value)) := by
  rw [parse_format_cookies rs h, List.map_map]
  rfl

/-- Witness for C5 (amended): a two-record in-domain, well-formed list
round-trips to its own name/value pairs. -/
theorem C5_roundtrip_amended_witness :
    (parse_cookies (format_cookies
      [{ name := "a".data, value := "1".data,
         domain := ".zeabur.com".data, path := "/".data },
       { name := "session".data, value := "x-9".data,
         domain := "api.zeabur.com".data, path := "/".data }])).map
        (fun r => (r.name, r.value)) =
      [("a".data, "1".data), ("session".data, "x-9".data)] := by
  rw [C5_roundtrip_amended _ (by decide)]
  decide

/-! ## Claim C10 -/

theorem map_refresh_eq_self (rs : List CookieRecord)
    (h : ∀ r ∈ rs, r.domain = ".zeabur.com".data ∧ r.path = "/".data) :
    rs.map (fun r => ({ name := r.name, value := r.value,
                        domain := ".zeabur.com".data, path := "/".data } : CookieRecord)) = rs := by
  induction rs with
  | nil => rfl
  | cons r rs ih =>
    obtain ⟨hd, hp⟩ := h r (List.mem_cons_self r rs)
    have hrec : ({ name := r.name, value := r.value, domain := ".zeabur.com".data,
                   path := "/".data } : CookieRecord) = r := by
      obtain ⟨n, v, d, p⟩ := r
      change d = _ at hd
      change p = _ at hp
      rw [hd, hp]
    rw [List.map_cons, hrec, ih (fun r' h' => h r' (List.mem_cons_of_mem r h'))]

/-- **C10** (decode-domain invariant): every record `decode` produces
carries the fixed domain `'.zeabur.com'` and path `'/'`; consequently the
encoder's domain filter keeps all of `decode`'s output, and
`encode ∘ decode` is idempotent on every input string. -/
theorem C10_decode_invariant (s : List Char) :
    (∀ r ∈ parse_cookies s, r.domain = ".zeabur.com".data ∧ r.path = "/".data) ∧
    (parse_cookies s).filter
      (fun c => containsStr "zeabur.com".data c.domain) = parse_cookies s ∧
    format_cookies (parse_cookies (format_cookies (parse_cookies s))) =
      format_cookies (parse_cookies s) := by
  refine ⟨?_, ?_, ?_⟩
  · intro r hr
    exact (parse_cookies_wf s r hr).2
  · rw [List.filter_eq_self]
    intro r hr
    exact (parse_cookies_wf s r hr).1.1
  · have hwf : ∀ r ∈ parse_cookies s, WfRecord r :=
      fun r hr => (parse_cookies_wf s r hr).1
    rw [parse_format_cookies (parse_cookies s) hwf]
    rw [map_refresh_eq_self (parse_cookies s)
      (fun r hr => (parse_cookies_wf s r hr).2)]

/-- Witness for C10: a concrete messy input string, on which
`encode ∘ decode` is idempotent and the filter keeps everything. -/
theorem C10_decode_invariant_witness :
    format_cookies (parse_cookies (format_cookies
      (parse_cookies " a=b=c; x; y = z ".data))) =
      format_cookies (parse_cookies " a=b=c; x; y = z ".data) ∧
    (parse_cookies "tok=v1; junk".data).filter
      (fun c => containsStr "zeabur.com".data c.domain) =
      parse_cookies "tok=v1; junk".data := by
  exact ⟨(C10_decode_invariant " a=b=c; x; y = z ".data).2.2,
    (C10_decode_invariant "tok=v1; junk".data).2.1⟩

/-! ## Claim C4 -/

/-- **C4** (secret-publisher protocol): every call issues exactly one GET
of the public-key endpoint; if that GET fails, no PUT is ever issued and
the error propagates; if it succeeds, exactly one PUT of the named-secret
endpoint follows (request trace is precisely `[GET, PUT]` — no retry of
either), carrying the base64 ciphertext sealed to the fetched key and the
fetched `key_id`; a PUT failure propagates, and only when both requests
succeed does the call return success. -/
theorem C4_publisher_protocol (api : GitHubApi) (crypto : CryptoModel)
    (owner repo secret_name secret_value : List Char)
    (res : Except (List Char) Unit) (events : List ReqEvent)
    (h : update_github_secret api crypto owner repo secret_name secret_value
      = (res, events)) :
    (api.getResp (githubKeyUrl owner repo) = HttpResp.failure →
      events = [ReqEvent.get (githubKeyUrl owner repo)] ∧
      res = Except.error "HTTPError".data) ∧
    (∀ kd, api.getResp (githubKeyUrl owner repo) = HttpResp.ok kd →
      ∃ body : PutBody,
        events = [ReqEvent.get (githubKeyUrl owner repo),
          ReqEvent.put (githubSecretUrl owner repo secret_name) body] ∧
        body.key_id = kd.key_id ∧
        body.encrypted_value = crypto.b64encode
          (crypto.sealedBoxEncrypt (crypto.b64decode kd.key) secret_value) ∧
        (api.putResp (githubSecretUrl owner repo secret_name) body
            = HttpResp.failure →
          res = Except.error "HTTPError".data) ∧
        (api.putResp (githubSecretUrl owner repo secret_name) body
            = HttpResp.ok () →
          res = Except.ok ())) := by
  cases hget : api.getResp (githubKeyUrl owner repo) with
  | failure =>
    have hcomp : update_github_secret api crypto owner repo secret_name secret_value
        = (Except.error "HTTPError".data, [ReqEvent.get (githubKeyUrl owner repo)]) := by
      simp only [update_github_secret, hget]
    rw [hcomp, Prod.mk.injEq] at h
    obtain ⟨rfl, rfl⟩ := h
    exact ⟨fun _ => ⟨rfl, rfl⟩, fun kd hkd => nomatch hkd⟩
  | ok kd =>
    refine ⟨fun hfail => (nomatch hfail), fun kd' hkd' => ?_⟩
    have hkdeq : kd = kd' := by cases hkd'; rfl
    subst hkdeq
    cases hput : api.putResp (githubSecretUrl owner repo secret_name)
        { encrypted_value := crypto.b64encode
            (crypto.sealedBoxEncrypt (crypto.b64decode kd.key) secret_value),
          key_id := kd.key_id } with
    | failure =>
      have hcomp : update_github_secret api crypto owner repo secret_name secret_value
          = (Except.error "HTTPError".data,
             [ReqEvent.get (githubKeyUrl owner repo),
              ReqEvent.put (githubSecretUrl owner repo secret_name)
                { encrypted_value := crypto.b64encode
                    (crypto.sealedBoxEncrypt (crypto.b64decode kd.key) secret_value),
                  key_id := kd.key_id }]) := by
        simp only [update_github_secret, hget, hput]
      rw [hcomp, Prod.mk.injEq] at h
      obtain ⟨rfl, rfl⟩ := h
      refine ⟨_, rfl, rfl, rfl, fun _ => rfl, ?_⟩
      intro hok
      rw [hok] at hput
      cases hput
    | ok u =>
      have hcomp : update_github_secret api crypto owner repo secret_name secret_value
          = (Except.ok (),
             [ReqEvent.get (githubKeyUrl owner repo),
              ReqEvent.put (githubSecretUrl owner repo secret_name)
                { encrypted_value := crypto.b64encode
                    (crypto.sealedBoxEncrypt (crypto.b64decode kd.key) secret_value),
                  key_id := kd.key_id }]) := by
        simp only [update_github_secret, hget, hput]
      rw [hcomp, Prod.mk.injEq] at h
      obtain ⟨rfl, rfl⟩ := h
      refine ⟨_, rfl, rfl, rfl, ?_, fun _ => rfl⟩
      intro hf
      rw [hf] at hput
      cases hput

/-- Witness for C4: with a mock API whose GET returns a concrete key and
whose PUT succeeds, the call succeeds and the trace is exactly one GET
followed by one PUT with the sealed body. -/
theorem C4_publisher_protocol_witness :
    (update_github_secret
      { getResp := fun _ => HttpResp.ok { key := "PUBKEY".data, key_id := "7".data },
        putResp := fun _ _ => HttpResp.ok () }
      { b64decode := fun _ => [1], sealedBoxEncrypt := fun _ _ => [2],
        b64encode := fun _ => "ct".data }
      "me".data "repo".data "ZEABUR_COOKIE".data "a=1".data).2 =
    [ReqEvent.get (githubKeyUrl "me".data "repo".data),
     ReqEvent.put (githubSecretUrl "me".data "repo".data "ZEABUR_COOKIE".data)
       { encrypted_value := "ct".data, key_id := "7".data }] ∧
    (update_github_secret
      { getResp := fun _ => HttpResp.ok { key := "PUBKEY".data, key_id := "7".data },
        putResp := fun _ _ => HttpResp.ok () }
      { b64decode := fun _ => [1], sealedBoxEncrypt := fun _ _ => [2],
        b64encode := fun _ => "ct".data }
      "me".data "repo".data "ZEABUR_COOKIE".data "a=1".data).1 = Except.ok () := by
  have h := C4_publisher_protocol
    { getResp := fun _ => HttpResp.ok { key := "PUBKEY".data, key_id := "7".data },
      putResp := fun _ _ => HttpResp.ok () }
    { b64decode := fun _ => [1], sealedBoxEncrypt := fun _ _ => [2],
      b64encode := fun _ => "ct".data }
    "me".data "repo".data "ZEABUR_COOKIE".data "a=1".data _ _ rfl
  obtain ⟨body, hev, hkid, hval, hfail, hok⟩ :=
    h.2 { key := "PUBKEY".data, key_id := "7".data } rfl
  obtain ⟨n, v⟩ := body
  obtain rfl : v = "7".data := hkid
  obtain rfl : n = "ct".data := hval
  exact ⟨hev, hok rfl⟩

/-! ## Orchestrator lemmas -/

theorem bool_ne_false {b : Bool} (h : ¬ b = false) : b = true := by
  cases b
  · exact absurd rfl h
  · rfl

/-- The success-path notification block never changes the exit code. -/
theorem successNotify_exitCode (env : Env) (o : Oracles) (es : List RunEvent) :
    (successNotify env o es).exitCode = 0 := by
  unfold successNotify
  split <;> rfl

/-- The success-path notification block's exit code and event trace do not
depend on the Telegram outcomes. -/
theorem successNotify_tg_irrelevant (env : Env) (o : Oracles)
    (m : PostOutcome) (p : PhotoOutcome) (es : List RunEvent) :
    (successNotify env { o with tgMsg := m, tgPhoto := p } es).exitCode
      = (successNotify env o es).exitCode ∧
    (successNotify env { o with tgMsg := m, tgPhoto := p } es).events
      = (successNotify env o es).events := by
  by_cases htg : (truthyOpt env.tg_bot_token && truthyOpt env.tg_chat_id) = true
  · simp only [successNotify, if_pos htg]
    constructor <;> trivial
  · simp only [successNotify, if_neg htg]
    constructor <;> trivial

/-- The publisher step's exit code and event trace do not depend on the
Telegram outcomes. -/
theorem publishStep_tg_irrelevant (env : Env) (o : Oracles)
    (m : PostOutcome) (p : PhotoOutcome) (owner repo_name : List Char)
    (es : List RunEvent) :
    (publishStep env { o with tgMsg := m, tgPhoto := p } owner repo_name es).exitCode
      = (publishStep env o owner repo_name es).exitCode ∧
    (publishStep env { o with tgMsg := m, tgPhoto := p } owner repo_name es).events
      = (publishStep env o owner repo_name es).events := by
  simp only [publishStep]
  cases hres : (update_github_secret o.api o.crypto owner repo_name
      "ZEABUR_COOKIE".data (format_cookies o.contextCookies)).1 with
  | error e => constructor <;> trivial
  | ok u => exact successNotify_tg_irrelevant env o m p _

/-- The run's exit code and event trace do not depend on the Telegram
outcomes: the send results feed only the `notifyOk` log decision. -/
theorem mainRun_tg_irrelevant (env : Env) (o : Oracles)
    (m : PostOutcome) (p : PhotoOutcome) :
    (mainRun env { o with tgMsg := m, tgPhoto := p }).exitCode
      = (mainRun env o).exitCode ∧
    (mainRun env { o with tgMsg := m, tgPhoto := p }).events
      = (mainRun env o).events := by
  simp only [mainRun]
  by_cases h1 : truthyOpt env.zeabur_cookie = false
  · simp only [if_pos h1]
    constructor <;> trivial
  · simp only [if_neg h1]
    by_cases h2 : (login_with_cookie (env.zeabur_cookie.getD [])
        o.loginOutcomes 2).success = false
    · simp only [if_pos h2]
      constructor <;> trivial
    · simp only [if_neg h2]
      by_cases h3 : o.screenshotOk = false
      · simp only [if_pos h3]
        constructor <;> trivial
      · simp only [if_neg h3]
        by_cases h4 : (truthyOpt env.repo_token && truthyStr env.github_repository
            && truthyStr (format_cookies o.contextCookies)) = true
        · simp only [if_pos h4]
          cases hrp : repoParts env.github_repository with
          | none => constructor <;> trivial
          | some pr =>
            obtain ⟨ow, rn⟩ := pr
            exact ⟨(publishStep_tg_irrelevant env o m p ow rn _).1,
                   (publishStep_tg_irrelevant env o m p ow rn _).2⟩
        · simp only [if_neg h4]
          exact successNotify_tg_irrelevant env o m p _

/-! ## Claim C8 -/

/-- **C8** (notifier failure contract): `send_telegram_message` and
`send_telegram_photo` are Bool-valued total functions — the blanket
`except` turns every raise of the body (network error, non-2xx, timeout,
unreadable file) into `false`, and they return `true` exactly when the
body succeeds; the success-path notification block always exits 0,
attempts the photo after the text whatever either outcome is (only the
`notifyOk` log line records the results); and the whole run's exit code
and event trace are unchanged under any substitution of both channels'
outcomes. -/
theorem C8_notifier_contract (po : PostOutcome) (pho : PhotoOutcome)
    (env : Env) (o : Oracles) (m m' : PostOutcome) (p p' : PhotoOutcome)
    (es : List RunEvent) :
    (send_telegram_message po = true ↔ sendMessageBody po = Except.ok ()) ∧
    (send_telegram_photo pho = true ↔ sendPhotoBody pho = Except.ok ()) ∧
    ((truthyOpt env.tg_bot_token && truthyOpt env.tg_chat_id) = true →
      (successNotify env o es).events = es ++ [RunEvent.tgText, RunEvent.tgPhoto] ∧
      (successNotify env o es).notifyOk =
        some (send_telegram_message o.tgMsg && send_telegram_photo o.tgPhoto)) ∧
    (successNotify env o es).exitCode = 0 ∧
    (mainRun env { o with tgMsg := m, tgPhoto := p }).exitCode =
      (mainRun env { o with tgMsg := m', tgPhoto := p' }).exitCode ∧
    (mainRun env { o with tgMsg := m, tgPhoto := p }).events =
      (mainRun env { o with tgMsg := m', tgPhoto := p' }).events := by
  refine ⟨?_, ?_, ?_, successNotify_exitCode env o es, ?_, ?_⟩
  · cases po <;> simp [send_telegram_message, sendMessageBody]
  · cases pho <;> simp [send_telegram_photo, sendPhotoBody]
  · intro htg
    constructor
    · simp [successNotify, htg]
    · simp [successNotify, htg]
  · exact (mainRun_tg_irrelevant env o m p).1.trans
      (mainRun_tg_irrelevant env o m' p').1.symm
  · exact (mainRun_tg_irrelevant env o m p).2.trans
      (mainRun_tg_irrelevant env o m' p').2.symm

/-- Witness for C8: a non-2xx text send and an unreadable-file photo send
both return `false`, and with Telegram configured, a failing text channel
still leaves the photo attempt in the trace. -/
theorem C8_notifier_contract_witness :
    send_telegram_message PostOutcome.badStatus = false ∧
    send_telegram_photo PhotoOutcome.fileError = false ∧
    (successNotify
      { zeabur_cookie := some "c".data, repo_token := none,
        github_repository := [], tg_bot_token := some "bt".data,
        tg_chat_id := some "ci".data }
      { loginOutcomes := fun _ => NavOutcome.err, screenshotOk := true,
        contextCookies := [],
        api := { getResp := fun _ => HttpResp.failure,
                 putResp := fun _ _ => HttpResp.failure },
        crypto := { b64decode := fun _ => [], sealedBoxEncrypt := fun _ _ => [],
                    b64encode := fun _ => [] },
        tgMsg := PostOutcome.badStatus, tgPhoto := PhotoOutcome.ok }
      []).events = [RunEvent.tgText, RunEvent.tgPhoto] := by
  have h := C8_notifier_contract PostOutcome.badStatus PhotoOutcome.fileError
    { zeabur_cookie := some "c".data, repo_token := none,
      github_repository := [], tg_bot_token := some "bt".data,
      tg_chat_id := some "ci".data }
    { loginOutcomes := fun _ => NavOutcome.err, screenshotOk := true,
      contextCookies := [],
      api := { getResp := fun _ => HttpResp.failure,
               putResp := fun _ _ => HttpResp.failure },
      crypto := { b64decode := fun _ => [], sealedBoxEncrypt := fun _ _ => [],
                  b64encode := fun _ => [] },
      tgMsg := PostOutcome.badStatus, tgPhoto := PhotoOutcome.ok }
    PostOutcome.ok PostOutcome.ok PhotoOutcome.ok PhotoOutcome.ok []
  refine ⟨?_, ?_, ?_⟩
  · cases hsend : send_telegram_message PostOutcome.badStatus
    · rfl
    · exact (nomatch h.1.mp hsend)
  · cases hsend : send_telegram_photo PhotoOutcome.fileError
    · rfl
    · exact (nomatch h.2.1.mp hsend)
  · simpa using (h.2.2.1 (by decide)).1

/-! ## Claim C9 -/

/-- **C9** (process exit-code contract): the run's exit code is always 0
or 1; with the session credential absent (unset or empty) the run exits 1
with an empty event trace — before any network call; and the exit code is
0 exactly when the credential is present, the session validation succeeds,
and no unhandled exception occurs afterwards (screenshot, repo-slug
unpacking, and — when configured with a non-empty re-encoded cookie — the
secret publish all succeed). -/
theorem C9_exit_codes (env : Env) (o : Oracles) (m : MainResult)
    (hm : m = mainRun env o) :
    (m.exitCode = 0 ∨ m.exitCode = 1) ∧
    (truthyOpt env.zeabur_cookie = false → m.exitCode = 1 ∧ m.events = []) ∧
    (m.exitCode = 0 ↔
      truthyOpt env.zeabur_cookie = true ∧
      (login_with_cookie (env.zeabur_cookie.getD []) o.loginOutcomes 2).success
        = true ∧
      noPostException env o = true) := by
  subst hm
  simp only [mainRun, noPostException]
  by_cases h1 : truthyOpt env.zeabur_cookie = false
  · simp [h1]
  · have h1' : truthyOpt env.zeabur_cookie = true := bool_ne_false h1
    by_cases h2 : (login_with_cookie (env.zeabur_cookie.getD [])
        o.loginOutcomes 2).success = false
    · simp [h1', h2]
    · have h2' : (login_with_cookie (env.zeabur_cookie.getD [])
          o.loginOutcomes 2).success = true := bool_ne_false h2
      by_cases h3 : o.screenshotOk = false
      · simp [h1', h2', h3]
      · have h3' : o.screenshotOk = true := bool_ne_false h3
        by_cases h4 : (truthyOpt env.repo_token && truthyStr env.github_repository
            && truthyStr (format_cookies o.contextCookies)) = true
        · simp only [h1', h2', h3', h4, if_true, if_false, Bool.true_and]
          cases hrp : repoParts env.github_repository with
          | none => simp [h1', h2', h3', h4, hrp]
          | some pr =>
            obtain ⟨ow, rn⟩ := pr
            simp only [h1', h2', h3', h4, hrp, if_true]
            cases hres : (update_github_secret o.api o.crypto ow rn
                "ZEABUR_COOKIE".data (format_cookies o.contextCookies)).1 with
            | error e =>
                simp [publishStep, publishOk, hres, h1', h2', h3']
            | ok u =>
                simp [publishStep, publishOk, hres, h1', h2', h3',
                  successNotify_exitCode]
        · have h4' : (truthyOpt env.repo_token && truthyStr env.github_repository
              && truthyStr (format_cookies o.contextCookies)) = false := by
            cases hc : (truthyOpt env.repo_token && truthyStr env.github_repository
                && truthyStr (format_cookies o.contextCookies))
            · rfl
            · exact absurd hc h4
          simp [h1', h2', h3', h4', successNotify_exitCode]

/-- Witness for C9: with a present credential, first-attempt authenticated
navigation, a successful screenshot, and no publisher configured, the run
exits 0. -/
theorem C9_exit_codes_witness :
    (mainRun
      { zeabur_cookie := some "a=1".data, repo_token := none,
        github_repository := [], tg_bot_token := none, tg_chat_id := none }
      { loginOutcomes := fun _ => NavOutcome.nav "https://zeabur.com/projects".data,
        screenshotOk := true, contextCookies := [],
        api := { getResp := fun _ => HttpResp.failure,
                 putResp := fun _ _ => HttpResp.failure },
        crypto := { b64decode := fun _ => [], sealedBoxEncrypt := fun _ _ => [],
                    b64encode := fun _ => [] },
        tgMsg := PostOutcome.ok, tgPhoto := PhotoOutcome.ok }).exitCode = 0 := by
  have h := C9_exit_codes
    { zeabur_cookie := some "a=1".data, repo_token := none,
      github_repository := [], tg_bot_token := none, tg_chat_id := none }
    { loginOutcomes := fun _ => NavOutcome.nav "https://zeabur.com/projects".data,
      screenshotOk := true, contextCookies := [],
      api := { getResp := fun _ => HttpResp.failure,
               putResp := fun _ _ => HttpResp.failure },
      crypto := { b64decode := fun _ => [], sealedBoxEncrypt := fun _ _ => [],
                  b64encode := fun _ => [] },
      tgMsg := PostOutcome.ok, tgPhoto := PhotoOutcome.ok } _ rfl
  exact h.2.2.mpr ⟨by decide, by decide, by decide⟩

end KeepAlive
